import Mathlib

/-!
Verification of the katoolin-lite core against its specification.

The development shallowly embeds the Python modules `katoolin_lite.apt`,
`katoolin_lite.catalog` and `katoolin_lite.cli`.  External effects are made
explicit:

* a `Host` record carries the observable environment — the effective uid,
  the presence and content of the Kali source record, the availability of
  the `dpkg-query` binary, an oracle giving the outcome of a `dpkg-query`
  invocation per package, and an oracle giving the outcome of any other
  spawned command;
* every operation additionally returns a trace of `Event`s recording the
  externally visible actions it performed, in order: privilege checks,
  `dpkg-query` invocations, commands issued to the apt runner, subordinate
  processes actually spawned, and writes/removals of the source record.

Python exceptions are modelled with `Except`; an uncaught exception is an
`Except.error` result.
-/

/-- Outcome of a spawned subordinate process: exit code and captured streams. -/
structure ProcResult where
  returncode : Int
  stdout : String
  stderr : String
deriving DecidableEq, Repr

/-- `AptCommandResult` from `apt.py`: result record of a command execution. -/
structure AptCommandResult where
  command : List String
  returncode : Int
  stdout : String
  stderr : String
deriving DecidableEq, Repr

/-- The `succeeded` property of `AptCommandResult`. -/
def AptCommandResult.succeeded (r : AptCommandResult) : Bool :=
  r.returncode == 0

/-- `AptError` from `apt.py`, carrying its message. -/
structure AptError where
  message : String
deriving DecidableEq, Repr

/-- Externally visible actions, recorded in traces. -/
inductive Event where
  | rootCheck : Event
  | query : String → Event
  | issue : List String → Event
  | spawn : List String → Event
  | writeSource : Event
  | removeSource : Event
deriving DecidableEq, Repr

/-- The observable environment the embedded program runs against. -/
structure Host where
  euid : Nat
  sourceExists : Bool
  sourceContent : String
  dpkgAvailable : Bool
  dpkg : String → ProcResult
  exec : List String → ProcResult

/-- The fixed repository-source line written by `enable_source`. -/
def KALI_SOURCE_SNIPPET : String :=
  "deb http://http.kali.org/kali kali-rolling main contrib non-free non-free-firmware\n"

/-- Code-point lexicographic comparison of character lists — the order Python
uses to compare strings. -/
def charListLe : List Char → List Char → Bool
  | [], _ => true
  | _ :: _, [] => false
  | a :: as, b :: bs =>
    if a < b then true
    else if b < a then false
    else charListLe as bs

/-- Python's `<=` on strings (code-point lexicographic). -/
def str_le (a b : String) : Prop := charListLe a.data b.data = true

/-- Python's `str.lower` on the ASCII range (the catalog keys are ASCII). -/
def char_lower (c : Char) : Char :=
  if 65 ≤ c.toNat ∧ c.toNat ≤ 90 then Char.ofNat (c.toNat + 32) else c

/-- Python's `str.lower`. -/
def py_lower (s : String) : String := ⟨s.data.map char_lower⟩

/-- The whitespace characters Python's `str.strip` removes: exactly the code
points for which Python's `str.isspace` holds (ASCII whitespace including the
information separators, NEL, NBSP, and the Unicode space/line/paragraph
separators). -/
def py_is_space (c : Char) : Bool :=
  [0x09, 0x0a, 0x0b, 0x0c, 0x0d, 0x1c, 0x1d, 0x1e, 0x1f, 0x20,
    0x85, 0xa0, 0x1680, 0x2000, 0x2001, 0x2002, 0x2003, 0x2004, 0x2005, 0x2006,
    0x2007, 0x2008, 0x2009, 0x200a, 0x2028, 0x2029, 0x202f, 0x205f,
    0x3000].contains c.toNat

/-- Python's `str.strip`: drop leading and trailing whitespace. -/
def py_strip (s : String) : String :=
  ⟨((s.data.dropWhile py_is_space).reverse.dropWhile py_is_space).reverse⟩

instance : DecidableRel str_le := fun _ _ => instDecidableEqBool _ _

instance : IsTotal String str_le :=
  ⟨by
    have aux : ∀ as bs : List Char, charListLe as bs = true ∨ charListLe bs as = true := by
      intro as
      induction as with
      | nil => intro bs; left; rfl
      | cons a as ih =>
        intro bs
        cases bs with
        | nil => right; rfl
        | cons b bs =>
          rcases lt_trichotomy a b with hab | hab | hab
          · left
            simp only [charListLe, if_pos hab]
          · subst hab
            simp only [charListLe, if_neg (lt_irrefl a), if_false]
            exact ih bs
          · right
            simp only [charListLe, if_pos hab]
    intro a b
    exact aux a.data b.data⟩

instance : IsTrans String str_le :=
  ⟨by
    have aux : ∀ as bs cs : List Char, charListLe as bs = true → charListLe bs cs = true →
        charListLe as cs = true := by
      intro as
      induction as with
      | nil => intro bs cs _ _; rfl
      | cons a as ih =>
        intro bs cs h1 h2
        cases bs with
        | nil => exact absurd h1 (by simp [charListLe])
        | cons b bs =>
          cases cs with
          | nil => exact absurd h2 (by simp [charListLe])
          | cons c cs =>
            rcases lt_trichotomy a b with hab | hab | hab
            · rcases lt_trichotomy b c with hbc | hbc | hbc
              · simp only [charListLe, if_pos (lt_trans hab hbc)]
              · subst hbc
                simp only [charListLe, if_pos hab]
              · simp only [charListLe] at h2
                rw [if_neg (lt_asymm hbc), if_pos hbc] at h2
                exact absurd h2 (by simp)
            · subst hab
              rcases lt_trichotomy a c with hac | hac | hac
              · simp only [charListLe, if_pos hac]
              · subst hac
                simp only [charListLe, if_neg (lt_irrefl a), if_false] at h1 h2 ⊢
                exact ih bs cs h1 h2
              · simp only [charListLe] at h2
                rw [if_neg (lt_asymm hac), if_pos hac] at h2
                exact absurd h2 (by simp)
            · simp only [charListLe] at h1
              rw [if_neg (lt_asymm hab), if_pos hab] at h1
              exact absurd h1 (by simp)
    intro a b c
    exact aux a.data b.data c.data⟩

instance : IsAntisymm String str_le :=
  ⟨by
    have aux : ∀ as bs : List Char, charListLe as bs = true → charListLe bs as = true →
        as = bs := by
      intro as
      induction as with
      | nil =>
        intro bs _ h2
        cases bs with
        | nil => rfl
        | cons b bs => exact absurd h2 (by simp [charListLe])
      | cons a as ih =>
        intro bs h1 h2
        cases bs with
        | nil => exact absurd h1 (by simp [charListLe])
        | cons b bs =>
          rcases lt_trichotomy a b with hab | hab | hab
          · simp only [charListLe] at h2
            rw [if_neg (lt_asymm hab), if_pos hab] at h2
            exact absurd h2 (by simp)
          · subst hab
            simp only [charListLe, if_neg (lt_irrefl a), if_false] at h1 h2
            rw [ih bs h1 h2]
          · simp only [charListLe] at h1
            rw [if_neg (lt_asymm hab), if_pos hab] at h1
            exact absurd h1 (by simp)
    intro a b h1 h2
    have := aux a.data b.data h1 h2
    cases a
    cases b
    exact congrArg String.mk (by simpa using this)⟩

/-- Python's `sorted(set(xs))` on strings: the distinct elements in
lexicographically ascending order. -/
def sortedDedup (l : List String) : List String :=
  l.dedup.insertionSort str_le

/-! ## catalog.py -/

/-- `Tool` from `catalog.py`. -/
structure Tool where
  name : String
  packages : List String
  description : String
  auto_updates : Bool := true
deriving DecidableEq, Repr

/-- `Tool.labels`. -/
def Tool.labels (t : Tool) : String :=
  if t.auto_updates then "auto" else "manual"

/-- `Category` from `catalog.py`. -/
structure Category where
  name : String
  tools : List Tool
  description : String
deriving DecidableEq, Repr

/-- `CATALOG` from `catalog.py` as an insertion-ordered association list
(Python dicts preserve insertion order). -/
def CATALOG : List (String × Category) := [
  ("recon",
   { name := "Reconnaissance",
     description := "Network and host discovery tooling.",
     tools := [
      { name := "nmap", packages := ["nmap"],
        description := "Versatile network scanner" },
      { name := "masscan", packages := ["masscan"],
        description := "Mass IP port scanner" },
      { name := "dnsenum", packages := ["dnsenum"],
        description := "DNS enumeration utility" },
      { name := "amass", packages := ["amass"],
        description := "In-depth attack surface mapping suite" },
      { name := "theharvester", packages := ["theharvester"],
        description := "Search engine and OSINT harvester" },
      { name := "recon-ng", packages := ["recon-ng"],
        description := "Modular OSINT reconnaissance framework" },
      { name := "sublist3r", packages := ["python3-sublist3r"],
        description := "Fast subdomain enumeration tool" },
      { name := "dnsrecon", packages := ["dnsrecon"],
        description := "DNS reconnaissance utility with brute forcing" },
      { name := "arp-scan", packages := ["arp-scan"],
        description := "ARP discovery for local network reconnaissance" },
      { name := "nbtscan", packages := ["nbtscan"],
        description := "NetBIOS name network scanner" },
      { name := "ike-scan", packages := ["ike-scan"],
        description := "Discover and fingerprint IKE VPN services" },
      { name := "legion", packages := ["legion"],
        description := "GUI-driven network enumeration platform" },
      { name := "rustscan", packages := ["rustscan"],
        description := "Lightning-fast TCP port scanner" }
     ] }),
  ("web",
   { name := "Web",
     description := "Web vulnerability analysis and exploitation.",
     tools := [
      { name := "nikto", packages := ["nikto"],
        description := "Web server scanner" },
      { name := "wfuzz", packages := ["wfuzz"],
        description := "Web application brute forcer" },
      { name := "burpsuite", packages := ["burpsuite"],
        description := "Integrated web security testing platform",
        auto_updates := false },
      { name := "gobuster", packages := ["gobuster"],
        description := "Directory and DNS brute forcing utility" },
      { name := "ffuf", packages := ["ffuf"],
        description := "Fast web fuzzer for content discovery" },
      { name := "dirsearch", packages := ["dirsearch"],
        description := "Command-line brute forcing of web paths" },
      { name := "owasp-zap", packages := ["owasp-zap"],
        description := "OWASP Zed Attack Proxy web scanner",
        auto_updates := false },
      { name := "whatweb", packages := ["whatweb"],
        description := "Next generation web scanner and fingerprinting" },
      { name := "wpscan", packages := ["wpscan"],
        description := "WordPress vulnerability scanner",
        auto_updates := false },
      { name := "skipfish", packages := ["skipfish"],
        description := "High-performance web application security scanner" },
      { name := "joomscan", packages := ["joomscan"],
        description := "Joomla vulnerability scanner" },
      { name := "xsser", packages := ["xsser"],
        description := "Automated XSS attack framework" }
     ] }),
  ("exploitation",
   { name := "Exploitation",
     description := "Exploitation frameworks and helpers.",
     tools := [
      { name := "metasploit-framework", packages := ["metasploit-framework"],
        description := "Metasploit penetration testing framework" },
      { name := "sqlmap", packages := ["sqlmap"],
        description := "Automated SQL injection tool" },
      { name := "searchsploit", packages := ["exploitdb"],
        description := "Local exploit database copies",
        auto_updates := false },
      { name := "crackmapexec", packages := ["crackmapexec"],
        description := "Swiss army knife for pentesting networks" },
      { name := "impacket-scripts", packages := ["impacket-scripts"],
        description := "Collection of Python tools for network exploitation" },
      { name := "set", packages := ["set"],
        description := "Social-Engineer Toolkit for targeted attacks",
        auto_updates := false },
      { name := "evil-winrm", packages := ["evil-winrm"],
        description := "PowerShell remoting shell for Windows targets" }
     ] }),
  ("post",
   { name := "Post-Exploitation",
     description := "Privilege escalation and persistence utilities.",
     tools := [
      { name := "beef-xss", packages := ["beef-xss"],
        description := "Browser exploitation framework",
        auto_updates := false },
      { name := "responder", packages := ["responder"],
        description := "LLMNR, NBT-NS and MDNS poisoning tool" },
      { name := "bloodhound", packages := ["bloodhound"],
        description := "Active Directory attack path visualiser",
        auto_updates := false },
      { name := "powershell-empire", packages := ["powershell-empire"],
        description := "Post-exploitation framework for PowerShell agents",
        auto_updates := false },
      { name := "winexe", packages := ["winexe"],
        description := "Remote command execution for Windows hosts" }
     ] }),
  ("wireless",
   { name := "Wireless",
     description := "Wireless auditing toolset.",
     tools := [
      { name := "aircrack-ng", packages := ["aircrack-ng"],
        description := "Wi-Fi network cracking suite" },
      { name := "bettercap", packages := ["bettercap"],
        description := "Network capture and MITM framework" },
      { name := "kismet", packages := ["kismet"],
        description := "Wireless network detector, sniffer, and IDS" },
      { name := "reaver", packages := ["reaver"],
        description := "WPS brute force attack tool" },
      { name := "hcxdumptool", packages := ["hcxdumptool"],
        description := "Captures wireless traffic for hash cracking" },
      { name := "wifite", packages := ["wifite"],
        description := "Automated wireless attack toolkit" },
      { name := "mdk4", packages := ["mdk4"],
        description := "Wi-Fi network stress testing tool" },
      { name := "pixiewps", packages := ["pixiewps"],
        description := "Offline WPS PIN recovery tool" },
      { name := "cowpatty", packages := ["cowpatty"],
        description := "WPA-PSK dictionary attack utility" },
      { name := "asleap", packages := ["asleap"],
        description := "CISCO LEAP password cracking tool" }
     ] }),
  ("passwords",
   { name := "Password Attacks",
     description := "Wordlist generation and password cracking suites.",
     tools := [
      { name := "hashcat", packages := ["hashcat"],
        description := "GPU-accelerated password cracker" },
      { name := "john", packages := ["john"],
        description := "John the Ripper password cracking framework" },
      { name := "hydra", packages := ["hydra"],
        description := "Parallelized login brute forcer" },
      { name := "cewl", packages := ["cewl"],
        description := "Custom wordlist generator from web content" },
      { name := "crunch", packages := ["crunch"],
        description := "Flexible wordlist generation utility" },
      { name := "medusa", packages := ["medusa"],
        description := "High-performance parallel login brute forcer" },
      { name := "patator", packages := ["patator"],
        description := "Modular brute-force utility supporting many protocols" },
      { name := "hashid", packages := ["hashid"],
        description := "Identify the type of hashed password strings" },
      { name := "pack", packages := ["pack"],
        description := "Password Analysis and Cracking Kit utilities" }
     ] }),
  ("forensics",
   { name := "Forensics",
     description := "File system, memory, and artifact analysis tools.",
     tools := [
      { name := "autopsy", packages := ["autopsy"],
        description := "Digital forensics platform and graphical interface",
        auto_updates := false },
      { name := "sleuthkit", packages := ["sleuthkit"],
        description := "File system forensic analysis toolkit" },
      { name := "binwalk", packages := ["binwalk"],
        description := "Firmware analysis tool for binary images" },
      { name := "foremost", packages := ["foremost"],
        description := "File carving utility" },
      { name := "bulk-extractor", packages := ["bulk-extractor"],
        description := "Scans disk images, files, and directories for features" },
      { name := "volatility", packages := ["volatility"],
        description := "Advanced memory forensics framework" },
      { name := "plaso", packages := ["plaso"],
        description := "Log2Timeline plaso incident response toolkit" },
      { name := "guymager", packages := ["guymager"],
        description := "Forensic disk imaging solution" },
      { name := "xmount", packages := ["xmount"],
        description := "Convert on-disk images to virtual disk formats" }
     ] }),
  ("reverse",
   { name := "Reverse Engineering",
     description := "Binary and mobile application reverse engineering suites.",
     tools := [
      { name := "ghidra", packages := ["ghidra"],
        description := "NSA\x27s open-source reverse engineering toolkit",
        auto_updates := false },
      { name := "radare2", packages := ["radare2"],
        description := "Advanced command-line reverse engineering framework" },
      { name := "cutter", packages := ["cutter"],
        description := "Graphical interface for radare2" },
      { name := "jadx", packages := ["jadx"],
        description := "Android Dex to Java decompiler" },
      { name := "apktool", packages := ["apktool"],
        description := "Reverse engineer Android APK files" }
     ] })
]

/-- `iter_categories` from `catalog.py`: catalog values in insertion order. -/
def iter_categories : List Category :=
  CATALOG.map Prod.snd

/-- `get_category` from `catalog.py`.  A raised `KeyError` is an
`Except.error` carrying the exception message. -/
def get_category (name : String) : Except String Category :=
  let key := py_lower (py_strip name)
  match CATALOG.find? (fun kv => kv.fst = key) with
  | some kv => .ok kv.snd
  | none =>
      .error ("Unknown category \x27" ++ name ++ "\x27. Available: " ++
        ", ".intercalate (sortedDedup (CATALOG.map Prod.fst)))

/-! ## apt.py -/

/-- `AptRunner` from `apt.py`: its only state is the `dry_run` flag. -/
structure AptRunner where
  dry_run : Bool := false
deriving DecidableEq, Repr

/-- `AptRunner.run`.  The subordinate-process outcome comes from the host's
`exec` oracle; the trace records the issued command and, outside dry-run,
the spawned process. -/
def AptRunner.run (self : AptRunner) (exec : List String → ProcResult)
    (command : List String) (check : Bool := true) :
    Except AptError AptCommandResult × List Event :=
  if self.dry_run then
    (.ok { command := command, returncode := 0, stdout := "", stderr := "" },
      [Event.issue command])
  else
    let completed := exec command
    if check = true ∧ completed.returncode ≠ 0 then
      let msg := "Command " ++ " ".intercalate command ++ " failed: " ++ py_strip completed.stderr
      (.error { message := msg }, [Event.issue command, Event.spawn command])
    else
      (.ok { command := command, returncode := completed.returncode,
             stdout := completed.stdout, stderr := completed.stderr },
        [Event.issue command, Event.spawn command])

/-- `AptRunner.ensure_updated`. -/
def AptRunner.ensure_updated (self : AptRunner) (exec : List String → ProcResult) :
    Except AptError AptCommandResult × List Event :=
  self.run exec ["sudo", "apt-get", "update"]

/-- `AptRunner.install_packages`. -/
def AptRunner.install_packages (self : AptRunner) (exec : List String → ProcResult)
    (packages : List String) : Except AptError AptCommandResult × List Event :=
  self.run exec (["sudo", "apt-get", "install", "-y"] ++ packages)

/-- `AptRunner.upgrade_packages`. -/
def AptRunner.upgrade_packages (self : AptRunner) (exec : List String → ProcResult)
    (packages : List String) : Except AptError AptCommandResult × List Event :=
  self.run exec (["sudo", "apt-get", "install", "--only-upgrade", "-y"] ++ packages)

/-- `AptSourcesManager` from `apt.py`. -/
structure AptSourcesManager where
  runner : AptRunner := {}
deriving DecidableEq, Repr

/-- `AptSourcesManager.source_exists`: pure filesystem check on the host. -/
def source_exists (h : Host) : Bool :=
  h.sourceExists

/-- `AptSourcesManager.enable_source`. -/
def AptSourcesManager.enable_source (self : AptSourcesManager)
    (dry_run : Option Bool) (h : Host) : Host × List Event :=
  let dry := dry_run.getD self.runner.dry_run
  if dry then (h, [])
  else
    ({ h with sourceExists := true, sourceContent := KALI_SOURCE_SNIPPET },
      [Event.writeSource])

/-- `AptSourcesManager.disable_source`. -/
def AptSourcesManager.disable_source (self : AptSourcesManager)
    (dry_run : Option Bool) (h : Host) : Host × List Event :=
  let dry := dry_run.getD self.runner.dry_run
  if dry then (h, [])
  else if source_exists h then
    ({ h with sourceExists := false, sourceContent := "" }, [Event.removeSource])
  else (h, [])

/-- `AptSourcesManager.ensure_source`: returns whether a change was required,
together with the resulting host. -/
def AptSourcesManager.ensure_source (self : AptSourcesManager) (enable : Bool)
    (h : Host) : (Bool × Host) × List Event :=
  let currently_enabled := source_exists h
  if enable = true ∧ currently_enabled = false then
    let r := self.enable_source none h
    ((true, r.1), r.2)
  else if enable = false ∧ currently_enabled = true then
    let r := self.disable_source none h
    ((true, r.1), r.2)
  else ((false, h), [])

/-- `get_installed_version` from `apt.py`.  A missing `dpkg-query` binary
(`FileNotFoundError`) is re-raised as `AptError`; otherwise the query's
outcome comes from the host's `dpkg` oracle. -/
def get_installed_version (h : Host) (package : String) :
    Except AptError (Option String) × List Event :=
  if h.dpkgAvailable = false then
    (.error { message := "dpkg-query command not found" }, [])
  else
    let result := h.dpkg package
    if result.returncode ≠ 0 then (.ok none, [Event.query package])
    else if py_strip result.stdout = "" then (.ok none, [Event.query package])
    else (.ok (some (py_strip result.stdout)), [Event.query package])

/-- `require_root` from `apt.py`. -/
def require_root (h : Host) : Except AptError Unit × List Event :=
  if h.euid ≠ 0 then
    (.error { message := "This operation requires root privileges. Re-run with sudo." },
      [Event.rootCheck])
  else (.ok (), [Event.rootCheck])

/-! ## cli.py -/

/-- The loop body of `resolve_tool_version` in `cli.py`: query each package in
order, keeping the truthy version strings.  A raised `AptError` propagates. -/
def collect_versions (h : Host) : List String → Except AptError (List String) × List Event
  | [] => (.ok [], [])
  | package :: rest =>
    match get_installed_version h package with
    | (.error e, tr) => (.error e, tr)
    | (.ok version, tr) =>
      match collect_versions h rest with
      | (.error e, tr2) => (.error e, tr ++ tr2)
      | (.ok versions, tr2) =>
        match version with
        | some v => if v = "" then (.ok versions, tr ++ tr2) else (.ok (v :: versions), tr ++ tr2)
        | none => (.ok versions, tr ++ tr2)

/-- `resolve_tool_version` from `cli.py`. -/
def resolve_tool_version (h : Host) (tool : Tool) : Except AptError (Option String) × List Event :=
  match collect_versions h tool.packages with
  | (.error e, tr) => (.error e, tr)
  | (.ok versions, tr) =>
    if versions = [] then (.ok none, tr)
    else (.ok (some (", ".intercalate (sortedDedup versions))), tr)

/-- The `versions_before` dict comprehension of `handle_install`: snapshot the
installed version of each package, in order.  A raised `AptError` propagates. -/
def snapshot_versions (h : Host) :
    List String → Except AptError (List (String × Option String)) × List Event
  | [] => (.ok [], [])
  | package :: rest =>
    match get_installed_version h package with
    | (.error e, tr) => (.error e, tr)
    | (.ok version, tr) =>
      match snapshot_versions h rest with
      | (.error e, tr2) => (.error e, tr ++ tr2)
      | (.ok tail, tr2) => (.ok ((package, version) :: tail), tr ++ tr2)

/-- Lookup in the snapshot dict (`versions_before[pkg]`). -/
def lookup_snapshot (versions_before : List (String × Option String))
    (package : String) : Option String :=
  (((versions_before.find? (fun kv => kv.fst = package))).map Prod.snd).join

/-- One iteration of the report loop at the end of `handle_install`,
producing the printed line for one tool. -/
def report_tool (h : Host) (versions_before : List (String × Option String))
    (tool : Tool) : Except AptError String × List Event :=
  match resolve_tool_version h tool with
  | (.error e, tr) => (.error e, tr)
  | (.ok version, tr) =>
    let upgrade_label := if tool.auto_updates then "automatic" else "manual"
    let prev_versions := tool.packages.filterMap (fun p => lookup_snapshot versions_before p)
    let joined := ", ".intercalate (sortedDedup prev_versions)
    let prev_display := if joined = "" then "not installed" else joined
    let current :=
      match version with
      | some v => if v = "" then "not installed" else v
      | none => "not installed"
    (.ok (tool.name ++ ": " ++ prev_display ++ " -> " ++ current ++
      " (" ++ upgrade_label ++ " updates)"), tr)

/-- The full report loop at the end of `handle_install`. -/
def report_tools (h : Host) (versions_before : List (String × Option String)) :
    List Tool → Except AptError (List String) × List Event
  | [] => (.ok [], [])
  | tool :: rest =>
    match report_tool h versions_before tool with
    | (.error e, tr) => (.error e, tr)
    | (.ok line, tr) =>
      match report_tools h versions_before rest with
      | (.error e, tr2) => (.error e, tr ++ tr2)
      | (.ok lines, tr2) => (.ok (line :: lines), tr ++ tr2)

/-- `handle_install` from `cli.py`.  The returned `Int` is the subcommand's
exit code; a propagating `AptError` (from the snapshot or an apt command)
is an `Except.error`. -/
def handle_install (h : Host) (category_key : String) (upgrade : Bool)
    (dry_run : Bool) : Except AptError Int × List Event :=
  match get_category category_key with
  | .error _ => (.ok 1, [])
  | .ok category =>
    let runner : AptRunner := { dry_run := dry_run }
    if h.euid ≠ 0 then (.ok 1, [Event.rootCheck])
    else if source_exists h = false then (.ok 2, [Event.rootCheck])
    else
      let packages := sortedDedup (category.tools.flatMap (fun tool => tool.packages))
      match snapshot_versions h packages with
      | (.error e, tr) => (.error e, Event.rootCheck :: tr)
      | (.ok versions_before, tr1) =>
        match runner.ensure_updated h.exec with
        | (.error e, tr2) => (.error e, Event.rootCheck :: (tr1 ++ tr2))
        | (.ok _, tr2) =>
          match (if upgrade then runner.upgrade_packages h.exec packages
                 else runner.install_packages h.exec packages) with
          | (.error e, tr3) => (.error e, Event.rootCheck :: (tr1 ++ tr2 ++ tr3))
          | (.ok _, tr3) =>
            match report_tools h versions_before category.tools with
            | (.error e, tr4) => (.error e, Event.rootCheck :: (tr1 ++ tr2 ++ tr3 ++ tr4))
            | (.ok _, tr4) => (.ok 0, Event.rootCheck :: (tr1 ++ tr2 ++ tr3 ++ tr4))

/-- `handle_repo` from `cli.py`: returns the exit code and resulting host. -/
def handle_repo (h : Host) (command : String) (toggle_disable : Bool)
    (dry_run : Bool) : (Int × Host) × List Event :=
  let runner : AptRunner := { dry_run := dry_run }
  let sources : AptSourcesManager := { runner := runner }
  if command = "status" then ((0, h), [])
  else
    let target_state := !toggle_disable
    if h.euid ≠ 0 then ((1, h), [Event.rootCheck])
    else
      let r := sources.ensure_source target_state h
      ((0, r.1.2), Event.rootCheck :: r.2)

/-- `lookup_category_key` from `cli.py` (identity search over the catalog,
modelled as structural search; `none` stands for the unreachable
`ValueError`). -/
def lookup_category_key (category : Category) : Option String :=
  (CATALOG.find? (fun kv => kv.snd = category)).map Prod.fst

/-- The shared category-selection prelude of `list_categories` and
`handle_versions`: Python's `if category:` is true for a present, non-empty
string. -/
def selected_categories : Option String → Except String (List Category)
  | none => .ok iter_categories
  | some c => if c = "" then .ok iter_categories else (get_category c).map (fun cat => [cat])

/-- The inner loop of `handle_versions`: one row per tool. -/
def versions_tool_rows (h : Host) (key : String) :
    List Tool → Except AptError (List (String × String × String × String)) × List Event
  | [] => (.ok [], [])
  | tool :: rest =>
    match resolve_tool_version h tool with
    | (.error e, tr) => (.error e, tr)
    | (.ok version, tr) =>
      let v :=
        match version with
        | some s => if s = "" then "not installed" else s
        | none => "not installed"
      let update_policy := if tool.auto_updates then "automatic" else "manual"
      match versions_tool_rows h key rest with
      | (.error e, tr2) => (.error e, tr ++ tr2)
      | (.ok rows, tr2) => (.ok ((key, tool.name, v, update_policy) :: rows), tr ++ tr2)

/-- The outer loop of `handle_versions`. -/
def versions_rows (h : Host) :
    List Category → Except AptError (List (String × String × String × String)) × List Event
  | [] => (.ok [], [])
  | cat :: rest =>
    match versions_tool_rows h ((lookup_category_key cat).getD "") cat.tools with
    | (.error e, tr) => (.error e, tr)
    | (.ok rows, tr) =>
      match versions_rows h rest with
      | (.error e, tr2) => (.error e, tr ++ tr2)
      | (.ok rows2, tr2) => (.ok (rows ++ rows2), tr ++ tr2)

/-- `handle_versions` from `cli.py` (rendering flags affect only formatting,
not the exit code or the external actions). -/
def handle_versions (h : Host) (category : Option String) :
    Except AptError Int × List Event :=
  match selected_categories category with
  | .error _ => (.ok 1, [])
  | .ok cats =>
    match versions_rows h cats with
    | (.error e, tr) => (.error e, tr)
    | (.ok _, tr) => (.ok 0, tr)

/-- Per-tool payload entry built by `list_categories`. -/
structure ToolPayload where
  name : String
  packages : List String
  description : String
  updates : String
  version : Option String
deriving DecidableEq, Repr

/-- The inner payload loop of `list_categories`. -/
def list_tools_payload (h : Host) (only_installed : Bool) :
    List Tool → Except AptError (List ToolPayload) × List Event
  | [] => (.ok [], [])
  | tool :: rest =>
    match resolve_tool_version h tool with
    | (.error e, tr) => (.error e, tr)
    | (.ok version, tr) =>
      match list_tools_payload h only_installed rest with
      | (.error e, tr2) => (.error e, tr ++ tr2)
      | (.ok tail, tr2) =>
        if only_installed = true ∧ version = none then (.ok tail, tr ++ tr2)
        else
          (.ok ({ name := tool.name, packages := tool.packages,
                  description := tool.description, updates := tool.labels,
                  version := version } :: tail), tr ++ tr2)

/-- Per-category payload entry built by `list_categories`. -/
structure CategoryPayload where
  key : String
  name : String
  description : String
  tools : List ToolPayload
deriving DecidableEq, Repr

/-- The outer payload loop of `list_categories`. -/
def list_payload (h : Host) (only_installed : Bool) :
    List Category → Except AptError (List CategoryPayload) × List Event
  | [] => (.ok [], [])
  | cat :: rest =>
    match list_tools_payload h only_installed cat.tools with
    | (.error e, tr) => (.error e, tr)
    | (.ok tools_payload, tr) =>
      match list_payload h only_installed rest with
      | (.error e, tr2) => (.error e, tr ++ tr2)
      | (.ok tail, tr2) =>
        if only_installed = true ∧ tools_payload = [] then (.ok tail, tr ++ tr2)
        else
          (.ok ({ key := (lookup_category_key cat).getD "", name := cat.name,
                  description := cat.description, tools := tools_payload } :: tail),
            tr ++ tr2)

/-- `list_categories` from `cli.py` (rendering and JSON output affect only
formatting, not the exit code or the external actions). -/
def list_categories (h : Host) (category : Option String) (only_installed : Bool) :
    Except AptError Int × List Event :=
  match selected_categories category with
  | .error _ => (.ok 1, [])
  | .ok cats =>
    match list_payload h only_installed cats with
    | (.error e, tr) => (.error e, tr)
    | (.ok _, tr) => (.ok 0, tr)

/-! ## Helper definitions used in statements and witnesses -/

/-- The value `get_installed_version` returns when `dpkg-query` is available:
`None` on a non-zero exit or empty (stripped) output, the stripped stdout
otherwise. -/
def pure_version (h : Host) (package : String) : Option String :=
  let result := h.dpkg package
  if result.returncode ≠ 0 then none
  else if py_strip result.stdout = "" then none
  else some (py_strip result.stdout)

/-- The version `resolve_tool_version` keeps for one package: Python's
`if version:` filter applied to the per-package query result. -/
def truthy_version (h : Host) (package : String) : Option String :=
  match pure_version h package with
  | some v => if v = "" then none else some v
  | none => none

/-- The trace an `AptRunner.run` call leaves: the issued command, and outside
dry-run also the spawned subordinate process. -/
def run_events (dry : Bool) (command : List String) : List Event :=
  if dry then [Event.issue command] else [Event.issue command, Event.spawn command]

/-- Exec oracle whose processes always succeed with empty output. -/
def execZero : List String → ProcResult :=
  fun _ => { returncode := 0, stdout := "", stderr := "" }

/-- Exec oracle whose processes always fail with exit code 1 and stderr. -/
def execFail : List String → ProcResult :=
  fun _ => { returncode := 1, stdout := "", stderr := "boom\n" }

/-- dpkg oracle reporting every package as missing (exit code 1). -/
def dpkgNone : String → ProcResult :=
  fun _ => { returncode := 1, stdout := "", stderr := "" }

/-- dpkg oracle reporting version `1.0` for every package. -/
def dpkgOne : String → ProcResult :=
  fun _ => { returncode := 0, stdout := "1.0", stderr := "" }

/-- Concrete host: root, repository enabled, dpkg available. -/
def hostA : Host where
  euid := 0
  sourceExists := true
  sourceContent := KALI_SOURCE_SNIPPET
  dpkgAvailable := true
  dpkg := dpkgOne
  exec := execZero

/-- Concrete host: root, repository record absent, dpkg available. -/
def hostB : Host where
  euid := 0
  sourceExists := false
  sourceContent := ""
  dpkgAvailable := true
  dpkg := dpkgNone
  exec := execZero

/-- Concrete tool whose package list is a permutation of `toolBA`'s. -/
def toolAB : Tool where
  name := "x"
  packages := ["alpha", "beta"]
  description := "two packages"

/-- Concrete tool whose package list is a permutation of `toolAB`'s. -/
def toolBA : Tool where
  name := "x"
  packages := ["beta", "alpha"]
  description := "two packages"

/-- dpkg oracle reporting distinct versions for the two witness packages. -/
def dpkgTwo : String → ProcResult := fun p =>
  if p = "alpha" then { returncode := 0, stdout := "2.0\n", stderr := "" }
  else { returncode := 0, stdout := "1.5\n", stderr := "" }

/-- Concrete host used for the permutation witness. -/
def hostTwo : Host where
  euid := 0
  sourceExists := true
  sourceContent := KALI_SOURCE_SNIPPET
  dpkgAvailable := true
  dpkg := dpkgTwo
  exec := execZero

/-- Concrete host with the `dpkg-query` tool itself missing. -/
def hostNoDpkg : Host where
  euid := 0
  sourceExists := true
  sourceContent := KALI_SOURCE_SNIPPET
  dpkgAvailable := false
  dpkg := dpkgNone
  exec := execZero

/-! ## Basic lemmas about the runner and the version query -/

theorem run_trace (runner : AptRunner) (exec : List String → ProcResult)
    (command : List String) (check : Bool) :
    (runner.run exec command check).2 = run_events runner.dry_run command := by
  rcases runner with ⟨dry⟩
  cases dry
  · show (AptRunner.run ⟨false⟩ exec command check).2 = run_events false command
    unfold AptRunner.run run_events
    rw [if_neg (by decide : ¬((AptRunner.mk false).dry_run = true))]
    dsimp only
    split <;> rfl
  · rfl

theorem get_installed_version_available (h : Host) (hav : h.dpkgAvailable = true)
    (package : String) :
    get_installed_version h package = (.ok (pure_version h package), [Event.query package]) := by
  unfold get_installed_version pure_version
  rw [hav]
  by_cases hrc : (h.dpkg package).returncode ≠ 0 <;>
    by_cases hs : py_strip (h.dpkg package).stdout = "" <;>
    simp [hrc, hs]

theorem get_installed_version_unavailable (h : Host) (hav : h.dpkgAvailable = false)
    (package : String) :
    get_installed_version h package =
      (.error { message := "dpkg-query command not found" }, []) := by
  unfold get_installed_version
  rw [hav]
  simp

/-- C1 — In simulate (dry-run) mode no mutation occurs: `AptRunner.run` with
`dry_run = true` returns a synthetic success (exit code 0, empty stdout and
stderr, the command echoed back) and never spawns a subordinate process, and
`enable_source`/`disable_source` under an effective dry-run flag leave the
host — in particular the result of `source_exists` — unchanged, performing
no filesystem action. -/
theorem dry_run_simulation :
    (∀ (exec : List String → ProcResult) (command : List String) (check : Bool),
      AptRunner.run { dry_run := true } exec command check =
        (.ok { command := command, returncode := 0, stdout := "", stderr := "" },
          [Event.issue command]) ∧
      ∀ c, Event.spawn c ∉ (AptRunner.run { dry_run := true } exec command check).2) ∧
    (∀ (m : AptSourcesManager) (dry_run : Option Bool) (h : Host),
      dry_run.getD m.runner.dry_run = true →
      m.enable_source dry_run h = (h, []) ∧
      m.disable_source dry_run h = (h, []) ∧
      source_exists (m.enable_source dry_run h).1 = source_exists h ∧
      source_exists (m.disable_source dry_run h).1 = source_exists h) := by
  constructor
  · intro exec command check
    constructor
    · rfl
    · intro c
      simp [AptRunner.run]
  · intro m dry_run h hdry
    have he : m.enable_source dry_run h = (h, []) := by
      unfold AptSourcesManager.enable_source
      simp [hdry]
    have hd : m.disable_source dry_run h = (h, []) := by
      unfold AptSourcesManager.disable_source
      simp [hdry]
    exact ⟨he, hd, by rw [he], by rw [hd]⟩

theorem dry_run_simulation_witness :
    (AptRunner.run { dry_run := true } execZero ["sudo", "apt-get", "update"] true =
      (.ok { command := ["sudo", "apt-get", "update"], returncode := 0,
             stdout := "", stderr := "" },
        [Event.issue ["sudo", "apt-get", "update"]])) ∧
    ((some true).getD (AptSourcesManager.mk { dry_run := false }).runner.dry_run = true) ∧
    (AptSourcesManager.mk { dry_run := false }).enable_source (some true) hostA = (hostA, []) ∧
    (AptSourcesManager.mk { dry_run := false }).disable_source (some true) hostA = (hostA, []) :=
  ⟨(dry_run_simulation.1 execZero ["sudo", "apt-get", "update"] true).1, rfl,
   (dry_run_simulation.2 (AptSourcesManager.mk { dry_run := false }) (some true) hostA rfl).1,
   (dry_run_simulation.2 (AptSourcesManager.mk { dry_run := false }) (some true) hostA rfl).2.1⟩

/-- C4 — In non-simulate mode, `AptRunner.run` with `check = true` raises
`AptError` carrying the joined invocation and the stripped stderr exactly when
the spawned process exits non-zero (and returns the captured result when it
exits zero); with `check = false` it never raises and returns the captured
result regardless of the exit code. -/
theorem run_check_failure_semantics (runner : AptRunner) (exec : List String → ProcResult)
    (command : List String) (hdry : runner.dry_run = false) :
    ((runner.run exec command true).1 =
      (if (exec command).returncode ≠ 0 then
        .error { message := "Command " ++ " ".intercalate command ++ " failed: " ++
          py_strip (exec command).stderr }
      else
        .ok { command := command, returncode := (exec command).returncode,
              stdout := (exec command).stdout, stderr := (exec command).stderr })) ∧
    (runner.run exec command false).1 =
      .ok { command := command, returncode := (exec command).returncode,
            stdout := (exec command).stdout, stderr := (exec command).stderr } := by
  unfold AptRunner.run
  rw [hdry]
  by_cases hrc : (exec command).returncode ≠ 0 <;> simp [hrc]

theorem run_check_failure_semantics_witness :
    (AptRunner.mk false).dry_run = false ∧
    ((AptRunner.mk false).run execFail ["apt-get", "update"] true).1 =
      .error { message := "Command apt-get update failed: boom" } ∧
    ((AptRunner.mk false).run execFail ["apt-get", "update"] false).1 =
      .ok { command := ["apt-get", "update"], returncode := 1, stdout := "",
            stderr := "boom\n" } :=
  ⟨rfl,
   ((run_check_failure_semantics (AptRunner.mk false) execFail
      ["apt-get", "update"] rfl).1).trans (by rfl),
   ((run_check_failure_semantics (AptRunner.mk false) execFail
      ["apt-get", "update"] rfl).2).trans (by rfl)⟩

/-- C5 — `get_installed_version` returns absence (`none`), not an error, when
the query exits non-zero (or reports an empty version); it raises the
distinguishable fatal `AptError "dpkg-query command not found"` exactly when
the query tool itself is unavailable on the host. -/
theorem get_installed_version_error_discipline (h : Host) (package : String) :
    (h.dpkgAvailable = false →
      (get_installed_version h package).1 =
        .error { message := "dpkg-query command not found" }) ∧
    (h.dpkgAvailable = true →
      (get_installed_version h package).1 = .ok (pure_version h package)) ∧
    (h.dpkgAvailable = true → (h.dpkg package).returncode ≠ 0 →
      (get_installed_version h package).1 = .ok none) ∧
    ((∃ e, (get_installed_version h package).1 = .error e) ↔ h.dpkgAvailable = false) := by
  cases hav : h.dpkgAvailable
  · rw [get_installed_version_unavailable h hav package]
    refine ⟨fun _ => rfl, by simp, by simp, ?_⟩
    simp
  · rw [get_installed_version_available h hav package]
    refine ⟨by simp, fun _ => rfl, ?_, by simp⟩
    intro _ hrc
    simp [pure_version, hrc]

theorem get_installed_version_error_discipline_witness :
    hostNoDpkg.dpkgAvailable = false ∧
    (get_installed_version hostNoDpkg "nmap").1 =
      .error { message := "dpkg-query command not found" } ∧
    hostB.dpkgAvailable = true ∧ (hostB.dpkg "nmap").returncode ≠ 0 ∧
    (get_installed_version hostB "nmap").1 = .ok none :=
  ⟨rfl, (get_installed_version_error_discipline hostNoDpkg "nmap").1 rfl,
   rfl, by decide,
   (get_installed_version_error_discipline hostB "nmap").2.2.1 rfl (by decide)⟩

/-- C3 counterexample — under a dry-run runner, `ensure_source` reports a
change without making one: from a host without the source record,
`ensure_source true` returns `true`, afterwards `source_exists` is still
`false` (not the requested state), and a second `ensure_source true` reports
`true` again instead of `false`. -/
theorem ensure_source_dry_run_counterexample :
    ((AptSourcesManager.mk { dry_run := true }).ensure_source true hostB).1.1 = true ∧
    source_exists (((AptSourcesManager.mk { dry_run := true }).ensure_source true hostB).1.2)
      = false ∧
    ((AptSourcesManager.mk { dry_run := true }).ensure_source true
      (((AptSourcesManager.mk { dry_run := true }).ensure_source true hostB).1.2)).1.1
      = true :=
  ⟨rfl, rfl, rfl⟩

/-- C3 (amended) — when the manager's runner is not in dry-run mode,
`ensure_source` is idempotent: it returns `true` iff `source_exists` disagreed
with the target beforehand, afterwards `source_exists` equals the target, and
a second call with the same target returns `false`. -/
theorem ensure_source_idempotent (m : AptSourcesManager) (b : Bool) (h : Host)
    (hdry : m.runner.dry_run = false) :
    ((m.ensure_source b h).1.1 = true ↔ source_exists h ≠ b) ∧
    source_exists (m.ensure_source b h).1.2 = b ∧
    (m.ensure_source b (m.ensure_source b h).1.2).1.1 = false := by
  unfold AptSourcesManager.ensure_source AptSourcesManager.enable_source
    AptSourcesManager.disable_source source_exists
  cases b <;> cases hse : h.sourceExists <;> simp [hdry, hse]

theorem ensure_source_idempotent_witness :
    (AptSourcesManager.mk { dry_run := false }).runner.dry_run = false ∧
    (((AptSourcesManager.mk { dry_run := false }).ensure_source true hostB).1.1 = true ↔
      source_exists hostB ≠ true) ∧
    source_exists ((AptSourcesManager.mk { dry_run := false }).ensure_source true hostB).1.2
      = true ∧
    ((AptSourcesManager.mk { dry_run := false }).ensure_source true
      ((AptSourcesManager.mk { dry_run := false }).ensure_source true hostB).1.2).1.1
      = false := by
  refine ⟨rfl, ?_, ?_, ?_⟩
  · exact (ensure_source_idempotent (AptSourcesManager.mk { dry_run := false }) true hostB rfl).1
  · exact (ensure_source_idempotent (AptSourcesManager.mk { dry_run := false }) true hostB rfl).2.1
  · exact (ensure_source_idempotent (AptSourcesManager.mk { dry_run := false }) true hostB rfl).2.2

/-- C8 counterexample — an empty package list is not rejected: in non-simulate
mode `install_packages []` and `upgrade_packages []` invoke the package
manager with the bare command templates, spawn the subordinate process, and
return success instead of raising a validation error. -/
theorem install_empty_list_not_rejected :
    (AptRunner.mk false).install_packages execZero [] =
      (.ok { command := ["sudo", "apt-get", "install", "-y"], returncode := 0,
             stdout := "", stderr := "" },
       [Event.issue ["sudo", "apt-get", "install", "-y"],
        Event.spawn ["sudo", "apt-get", "install", "-y"]]) ∧
    (AptRunner.mk false).upgrade_packages execZero [] =
      (.ok { command := ["sudo", "apt-get", "install", "--only-upgrade", "-y"],
             returncode := 0, stdout := "", stderr := "" },
       [Event.issue ["sudo", "apt-get", "install", "--only-upgrade", "-y"],
        Event.spawn ["sudo", "apt-get", "install", "--only-upgrade", "-y"]]) :=
  ⟨rfl, rfl⟩

/-- C8 (amended) — `install_packages` and `upgrade_packages` perform no
emptiness validation: for every package list, empty included, they pass the
fixed template with the list appended straight to the runner, whose first
action is to issue that command. -/
theorem install_upgrade_no_empty_validation (runner : AptRunner)
    (exec : List String → ProcResult) (packages : List String) :
    (runner.install_packages exec packages).2.head? =
      some (Event.issue (["sudo", "apt-get", "install", "-y"] ++ packages)) ∧
    (runner.upgrade_packages exec packages).2.head? =
      some (Event.issue (["sudo", "apt-get", "install", "--only-upgrade", "-y"] ++ packages)) := by
  rcases runner with ⟨dry⟩
  have h1 : ((AptRunner.mk dry).install_packages exec packages).2 =
      run_events dry (["sudo", "apt-get", "install", "-y"] ++ packages) := by
    unfold AptRunner.install_packages
    exact run_trace (AptRunner.mk dry) exec _ true
  have h2 : ((AptRunner.mk dry).upgrade_packages exec packages).2 =
      run_events dry (["sudo", "apt-get", "install", "--only-upgrade", "-y"] ++ packages) := by
    unfold AptRunner.upgrade_packages
    exact run_trace (AptRunner.mk dry) exec _ true
  rw [h1, h2]
  unfold run_events
  cases dry <;> exact ⟨rfl, rfl⟩

/-- C2 — with a known group, when the privilege check passes but the
repository source record is absent, `handle_install` stops with exit code 2
(the `RepositoryNotEnabled` outcome) after only the privilege check: no
version snapshot is taken, no command is issued or spawned, and the source
record is not written or removed. -/
theorem install_requires_enabled_repo (h : Host) (category_key : String)
    (category : Category) (upgrade dry_run : Bool)
    (hcat : get_category category_key = .ok category)
    (hroot : h.euid = 0) (hsrc : h.sourceExists = false) :
    handle_install h category_key upgrade dry_run = (.ok 2, [Event.rootCheck]) ∧
    (∀ p, Event.query p ∉ (handle_install h category_key upgrade dry_run).2) ∧
    (∀ c, Event.issue c ∉ (handle_install h category_key upgrade dry_run).2) ∧
    (∀ c, Event.spawn c ∉ (handle_install h category_key upgrade dry_run).2) ∧
    Event.writeSource ∉ (handle_install h category_key upgrade dry_run).2 ∧
    Event.removeSource ∉ (handle_install h category_key upgrade dry_run).2 := by
  have heq : handle_install h category_key upgrade dry_run = (.ok 2, [Event.rootCheck]) := by
    unfold handle_install
    rw [hcat]
    simp [hroot, source_exists, hsrc]
  refine ⟨heq, ?_, ?_, ?_, ?_, ?_⟩ <;> simp [heq]

theorem install_requires_enabled_repo_witness :
    get_category "recon" = .ok (CATALOG.get ⟨0, by decide⟩).2 ∧
    hostB.euid = 0 ∧ hostB.sourceExists = false ∧
    handle_install hostB "recon" false false = (.ok 2, [Event.rootCheck]) :=
  ⟨rfl, rfl, rfl,
   (install_requires_enabled_repo hostB "recon" (CATALOG.get ⟨0, by decide⟩).2
      false false rfl rfl rfl).1⟩

theorem find?_key_eq (l : List (String × Category)) (k : String) (c : Category)
    (hmem : (k, c) ∈ l) (hnd : (l.map Prod.fst).Nodup) :
    l.find? (fun kv => kv.fst = k) = some (k, c) := by
  induction l with
  | nil => cases hmem
  | cons hd tl ih =>
    rw [List.map_cons, List.nodup_cons] at hnd
    rcases List.mem_cons.mp hmem with heq | hmem2
    · rw [← heq]
      exact List.find?_cons_of_pos _ (by simp)
    · have hk : hd.fst ≠ k := by
        intro hEq
        exact hnd.1 (hEq ▸ List.mem_map.mpr ⟨(k, c), hmem2, rfl⟩)
      rw [List.find?_cons_of_neg _ (by simp [hk])]
      exact ih hmem2 hnd.2

/-- C10 — `get_category` normalizes its argument by stripping surrounding
whitespace and lowercasing before the lookup: every input whose normalized
form is a catalog key yields that key's category record, and every input
whose normalized form is not a catalog key raises a `KeyError` whose message
lists all valid keys in sorted order. -/
theorem get_category_normalization :
    (∀ key cat, (key, cat) ∈ CATALOG →
      ∀ s : String, py_lower (py_strip s) = key → get_category s = .ok cat) ∧
    (∀ s : String, py_lower (py_strip s) ∉ CATALOG.map Prod.fst →
      get_category s = .error ("Unknown category \x27" ++ s ++ "\x27. Available: " ++
        "exploitation, forensics, passwords, post, recon, reverse, web, wireless")) := by
  have hnd : (CATALOG.map Prod.fst).Nodup := by decide
  constructor
  · intro key cat hmem s hs
    simp only [get_category]
    rw [hs, find?_key_eq CATALOG key cat hmem hnd]
  · intro s hs
    have hf : CATALOG.find? (fun kv => kv.fst = py_lower (py_strip s)) = none := by
      apply List.find?_eq_none.mpr
      intro kv hkv
      simp only [decide_eq_true_eq]
      intro hEq
      exact hs (List.mem_map.mpr ⟨kv, hkv, hEq⟩)
    have hsort : ", ".intercalate (sortedDedup (CATALOG.map Prod.fst)) =
        "exploitation, forensics, passwords, post, recon, reverse, web, wireless" := by
      decide
    simp only [get_category]
    rw [hf, hsort]

theorem get_category_normalization_witness :
    (("recon", (CATALOG.get ⟨0, by decide⟩).2) ∈ CATALOG) ∧
    py_lower (py_strip "  RECON ") = "recon" ∧
    get_category "  RECON " = .ok (CATALOG.get ⟨0, by decide⟩).2 ∧
    py_lower (py_strip "RECON\xa0") = "recon" ∧
    get_category "RECON\xa0" = .ok (CATALOG.get ⟨0, by decide⟩).2 ∧
    py_lower (py_strip "\x1crecon\x85") = "recon" ∧
    get_category "\x1crecon\x85" = .ok (CATALOG.get ⟨0, by decide⟩).2 ∧
    py_lower (py_strip "doesnotexist") ∉ CATALOG.map Prod.fst ∧
    get_category "doesnotexist" =
      .error ("Unknown category \x27doesnotexist\x27. Available: exploitation, forensics, passwords, post, recon, reverse, web, wireless") :=
  ⟨by decide, by decide,
   get_category_normalization.1 "recon" (CATALOG.get ⟨0, by decide⟩).2 (by decide)
     "  RECON " (by decide),
   by decide,
   get_category_normalization.1 "recon" (CATALOG.get ⟨0, by decide⟩).2 (by decide)
     "RECON\xa0" (by decide),
   by decide,
   get_category_normalization.1 "recon" (CATALOG.get ⟨0, by decide⟩).2 (by decide)
     "\x1crecon\x85" (by decide),
   by decide,
   (get_category_normalization.2 "doesnotexist" (by decide)).trans (by rfl)⟩

theorem collect_versions_available (h : Host) (hav : h.dpkgAvailable = true)
    (packages : List String) :
    collect_versions h packages =
      (.ok (packages.filterMap (truthy_version h)), packages.map Event.query) := by
  induction packages with
  | nil => rfl
  | cons p ps ih =>
    simp only [collect_versions, get_installed_version_available h hav p, ih]
    cases hv : pure_version h p with
    | none => simp [truthy_version, hv]
    | some v => by_cases he : v = "" <;> simp [truthy_version, hv, he]

theorem collect_versions_unavailable (h : Host) (hav : h.dpkgAvailable = false)
    (packages : List String) (hne : packages ≠ []) :
    collect_versions h packages =
      (.error { message := "dpkg-query command not found" }, []) := by
  cases packages with
  | nil => exact absurd rfl hne
  | cons p ps =>
    simp only [collect_versions, get_installed_version_unavailable h hav p]

theorem sortedDedup_perm_eq {l1 l2 : List String} (hp : l1.Perm l2) :
    sortedDedup l1 = sortedDedup l2 := by
  unfold sortedDedup
  have hperm : (l1.dedup.insertionSort str_le).Perm (l2.dedup.insertionSort str_le) :=
    (List.perm_insertionSort str_le l1.dedup).trans
      (hp.dedup.trans (List.perm_insertionSort str_le l2.dedup).symm)
  exact List.eq_of_perm_of_sorted hperm
    (List.sorted_insertionSort str_le l1.dedup) (List.sorted_insertionSort str_le l2.dedup)

/-- C6 — `resolve_tool_version` is deterministic under reordering: it keeps
the truthy per-package versions, deduplicates them into a set and joins the
sorted result, so any two tools whose package lists are permutations of one
another resolve to the same value on the same host. -/
theorem resolve_tool_version_perm (h : Host) (t1 t2 : Tool)
    (hp : t1.packages.Perm t2.packages) :
    (resolve_tool_version h t1).1 = (resolve_tool_version h t2).1 := by
  cases hav : h.dpkgAvailable
  · by_cases h1 : t1.packages = []
    · have h2 : t2.packages = [] := by
        rw [h1] at hp
        exact hp.symm.eq_nil
      simp [resolve_tool_version, collect_versions, h1, h2]
    · have h2 : t2.packages ≠ [] := by
        intro he
        rw [he] at hp
        exact h1 hp.eq_nil
      rw [resolve_tool_version, resolve_tool_version,
        collect_versions_unavailable h hav t1.packages h1,
        collect_versions_unavailable h hav t2.packages h2]
  · rw [resolve_tool_version, resolve_tool_version,
      collect_versions_available h hav t1.packages,
      collect_versions_available h hav t2.packages]
    have hfm : (t1.packages.filterMap (truthy_version h)).Perm
        (t2.packages.filterMap (truthy_version h)) := hp.filterMap _
    by_cases h1 : t1.packages.filterMap (truthy_version h) = []
    · have h2 : t2.packages.filterMap (truthy_version h) = [] := by
        rw [h1] at hfm
        exact hfm.symm.eq_nil
      simp [h1, h2]
    · have h2 : t2.packages.filterMap (truthy_version h) ≠ [] := by
        intro he
        rw [he] at hfm
        exact h1 hfm.eq_nil
      simp [h1, h2, sortedDedup_perm_eq hfm]

theorem resolve_tool_version_perm_witness :
    toolAB.packages.Perm toolBA.packages ∧
    (resolve_tool_version hostTwo toolAB).1 = (resolve_tool_version hostTwo toolBA).1 ∧
    (resolve_tool_version hostTwo toolAB).1 = .ok (some "1.5, 2.0") :=
  ⟨by decide,
   resolve_tool_version_perm hostTwo toolAB toolBA (by decide),
   by rfl⟩

/-! ## Trace lemmas -/

theorem collect_versions_trace_queries (h : Host) (packages : List String) :
    ∀ e ∈ (collect_versions h packages).2, ∃ q, e = Event.query q := by
  cases hav : h.dpkgAvailable
  · by_cases hne : packages = []
    · subst hne
      intro e he
      simp [collect_versions] at he
    · rw [collect_versions_unavailable h hav packages hne]
      intro e he
      simp at he
  · rw [collect_versions_available h hav packages]
    intro e he
    simp only [List.mem_map] at he
    rcases he with ⟨q, _, hq⟩
    exact ⟨q, hq.symm⟩

theorem resolve_tool_version_trace (h : Host) (tool : Tool) :
    (resolve_tool_version h tool).2 = (collect_versions h tool.packages).2 := by
  unfold resolve_tool_version
  rcases hc : collect_versions h tool.packages with ⟨res, tr⟩
  cases res with
  | error e => rfl
  | ok versions => by_cases hv : versions = [] <;> simp [hv]

theorem resolve_tool_version_trace_queries (h : Host) (tool : Tool) :
    ∀ e ∈ (resolve_tool_version h tool).2, ∃ q, e = Event.query q := by
  rw [resolve_tool_version_trace h tool]
  exact collect_versions_trace_queries h tool.packages

theorem resolve_tool_version_available (h : Host) (hav : h.dpkgAvailable = true)
    (tool : Tool) :
    resolve_tool_version h tool =
      (.ok (if tool.packages.filterMap (truthy_version h) = [] then none
            else some (", ".intercalate
              (sortedDedup (tool.packages.filterMap (truthy_version h))))),
        tool.packages.map Event.query) := by
  unfold resolve_tool_version
  rw [collect_versions_available h hav]
  by_cases hv : tool.packages.filterMap (truthy_version h) = [] <;> simp [hv]

theorem snapshot_versions_available (h : Host) (hav : h.dpkgAvailable = true)
    (packages : List String) :
    snapshot_versions h packages =
      (.ok (packages.map (fun p => (p, pure_version h p))), packages.map Event.query) := by
  induction packages with
  | nil => rfl
  | cons p ps ih =>
    simp only [snapshot_versions, get_installed_version_available h hav p, ih]
    simp

theorem report_tool_available (h : Host) (hav : h.dpkgAvailable = true)
    (vb : List (String × Option String)) (tool : Tool) :
    ∃ line, report_tool h vb tool = (.ok line, tool.packages.map Event.query) := by
  unfold report_tool
  rw [resolve_tool_version_available h hav tool]
  exact ⟨_, rfl⟩

theorem report_tools_available (h : Host) (hav : h.dpkgAvailable = true)
    (vb : List (String × Option String)) (tools : List Tool) :
    ∃ lines, report_tools h vb tools =
      (.ok lines, tools.flatMap (fun t => t.packages.map Event.query)) := by
  induction tools with
  | nil => exact ⟨[], rfl⟩
  | cons t ts ih =>
    rcases ih with ⟨lines, hl⟩
    rcases report_tool_available h hav vb t with ⟨line, hline⟩
    refine ⟨line :: lines, ?_⟩
    simp only [report_tools, hline, hl]
    simp

theorem flatMap_queries_only (tools : List Tool) :
    ∀ e ∈ tools.flatMap (fun t => t.packages.map Event.query), ∃ q, e = Event.query q := by
  intro e he
  rcases List.mem_flatMap.mp he with ⟨t, _, hm⟩
  rcases List.mem_map.mp hm with ⟨q, _, hq⟩
  exact ⟨q, hq.symm⟩

theorem run_dry (exec : List String → ProcResult) (command : List String) (check : Bool) :
    AptRunner.run { dry_run := true } exec command check =
      (.ok { command := command, returncode := 0, stdout := "", stderr := "" },
        run_events true command) := rfl

theorem run_wet_ok (exec : List String → ProcResult) (command : List String)
    (hok : (exec command).returncode = 0) :
    AptRunner.run { dry_run := false } exec command true =
      (.ok { command := command, returncode := (exec command).returncode,
             stdout := (exec command).stdout, stderr := (exec command).stderr },
        run_events false command) := by
  unfold AptRunner.run run_events
  simp [hok]

/-- C7 — for a known group, when root and the repository record are present
and the query tool is available, `handle_install` first snapshots the
installed version of every distinct package of the group (the sorted, deduped
union of the tools' package lists), then issues exactly one refresh-index
invocation followed by exactly one install or upgrade invocation — chosen by
the upgrade flag — over that sorted package set, in that order; whatever
follows (the report phase) issues and spawns nothing further. -/
theorem install_workflow_order (h : Host) (category_key : String) (category : Category)
    (upgrade dry_run : Bool)
    (hcat : get_category category_key = .ok category)
    (hroot : h.euid = 0) (hsrc : h.sourceExists = true) (hav : h.dpkgAvailable = true)
    (hupd : dry_run = true ∨ (h.exec ["sudo", "apt-get", "update"]).returncode = 0) :
    ∃ rest,
      (handle_install h category_key upgrade dry_run).2 =
        Event.rootCheck ::
          ((sortedDedup (category.tools.flatMap (fun tool => tool.packages))).map Event.query ++
            run_events dry_run ["sudo", "apt-get", "update"] ++
            run_events dry_run
              ((if upgrade then ["sudo", "apt-get", "install", "--only-upgrade", "-y"]
                else ["sudo", "apt-get", "install", "-y"]) ++
                sortedDedup (category.tools.flatMap (fun tool => tool.packages))) ++
            rest) ∧
      (∀ c, Event.issue c ∉ rest) ∧ (∀ c, Event.spawn c ∉ rest) := by
  have hstep : (if upgrade then
        AptRunner.upgrade_packages { dry_run := dry_run } h.exec
          (sortedDedup (category.tools.flatMap (fun tool => tool.packages)))
      else
        AptRunner.install_packages { dry_run := dry_run } h.exec
          (sortedDedup (category.tools.flatMap (fun tool => tool.packages)))) =
      AptRunner.run { dry_run := dry_run } h.exec
        ((if upgrade then ["sudo", "apt-get", "install", "--only-upgrade", "-y"]
          else ["sudo", "apt-get", "install", "-y"]) ++
          sortedDedup (category.tools.flatMap (fun tool => tool.packages))) true := by
    cases upgrade <;> rfl
  unfold handle_install
  rw [hcat]
  simp only [hroot, source_exists, hsrc, ne_eq, not_true_eq_false, if_false,
    Bool.true_eq_false, snapshot_versions_available h hav, AptRunner.ensure_updated, hstep]
  cases dry_run with
  | true =>
    rw [run_dry, run_dry]
    rcases report_tools_available h hav
      ((sortedDedup (category.tools.flatMap (fun tool => tool.packages))).map
        (fun p => (p, pure_version h p))) category.tools with ⟨lines, hrep⟩
    rw [hrep]
    refine ⟨category.tools.flatMap (fun t => t.packages.map Event.query), ?_, ?_, ?_⟩
    · simp [List.append_assoc]
    · intro c hc
      rcases flatMap_queries_only category.tools _ hc with ⟨q, hq⟩
      exact Event.noConfusion hq
    · intro c hc
      rcases flatMap_queries_only category.tools _ hc with ⟨q, hq⟩
      exact Event.noConfusion hq
  | false =>
    rcases hupd with hcontra | hok
    · exact absurd hcontra (by simp)
    rw [run_wet_ok h.exec ["sudo", "apt-get", "update"] hok]
    rcases hrun : AptRunner.run { dry_run := false } h.exec
        ((if upgrade then ["sudo", "apt-get", "install", "--only-upgrade", "-y"]
          else ["sudo", "apt-get", "install", "-y"]) ++
          sortedDedup (category.tools.flatMap (fun tool => tool.packages))) true
      with ⟨res3, tr3⟩
    have htr3 : tr3 = run_events false
        ((if upgrade then ["sudo", "apt-get", "install", "--only-upgrade", "-y"]
          else ["sudo", "apt-get", "install", "-y"]) ++
          sortedDedup (category.tools.flatMap (fun tool => tool.packages))) := by
      have := run_trace { dry_run := false } h.exec
        ((if upgrade then ["sudo", "apt-get", "install", "--only-upgrade", "-y"]
          else ["sudo", "apt-get", "install", "-y"]) ++
          sortedDedup (category.tools.flatMap (fun tool => tool.packages))) true
      rw [hrun] at this
      exact this
    cases res3 with
    | error e =>
      refine ⟨[], ?_, ?_, ?_⟩
      · simp [htr3, List.append_assoc]
      · intro c hc
        simp at hc
      · intro c hc
        simp at hc
    | ok r3 =>
      rcases report_tools_available h hav
        ((sortedDedup (category.tools.flatMap (fun tool => tool.packages))).map
          (fun p => (p, pure_version h p))) category.tools with ⟨lines, hrep⟩
      rw [hrep]
      refine ⟨category.tools.flatMap (fun t => t.packages.map Event.query), ?_, ?_, ?_⟩
      · simp [htr3, List.append_assoc]
      · intro c hc
        rcases flatMap_queries_only category.tools _ hc with ⟨q, hq⟩
        exact Event.noConfusion hq
      · intro c hc
        rcases flatMap_queries_only category.tools _ hc with ⟨q, hq⟩
        exact Event.noConfusion hq

theorem install_workflow_order_witness :
    get_category "post" = .ok (CATALOG.get ⟨3, by decide⟩).2 ∧
    hostA.euid = 0 ∧ hostA.sourceExists = true ∧ hostA.dpkgAvailable = true ∧
    ∃ rest,
      (handle_install hostA "post" false true).2 =
        Event.rootCheck ::
          ((sortedDedup ((CATALOG.get ⟨3, by decide⟩).2.tools.flatMap
              (fun tool => tool.packages))).map Event.query ++
            run_events true ["sudo", "apt-get", "update"] ++
            run_events true
              ((if false then ["sudo", "apt-get", "install", "--only-upgrade", "-y"]
                else ["sudo", "apt-get", "install", "-y"]) ++
                sortedDedup ((CATALOG.get ⟨3, by decide⟩).2.tools.flatMap
                  (fun tool => tool.packages))) ++
            rest) ∧
      (∀ c, Event.issue c ∉ rest) ∧ (∀ c, Event.spawn c ∉ rest) :=
  ⟨rfl, rfl, rfl, rfl,
   install_workflow_order hostA "post" (CATALOG.get ⟨3, by decide⟩).2 false true
     rfl rfl rfl rfl (Or.inl rfl)⟩

theorem versions_tool_rows_trace (h : Host) (key : String) (tools : List Tool) :
    ∀ e ∈ (versions_tool_rows h key tools).2, ∃ q, e = Event.query q := by
  induction tools with
  | nil =>
    intro e he
    simp [versions_tool_rows] at he
  | cons t ts ih =>
    intro e he
    rcases hr : resolve_tool_version h t with ⟨res, tr⟩
    have htr : ∀ x ∈ tr, ∃ q, x = Event.query q := by
      intro x hx
      apply resolve_tool_version_trace_queries h t
      rw [hr]
      exact hx
    rcases hv : versions_tool_rows h key ts with ⟨res2, tr2⟩
    have htr2 : ∀ x ∈ tr2, ∃ q, x = Event.query q := by
      intro x hx
      apply ih
      rw [hv]
      exact hx
    cases res with
    | error e0 =>
      simp only [versions_tool_rows, hr] at he
      exact htr e he
    | ok version =>
      cases res2 with
      | error e0 =>
        simp only [versions_tool_rows, hr, hv] at he
        rcases List.mem_append.mp he with h1 | h1
        exacts [htr e h1, htr2 e h1]
      | ok rows =>
        simp only [versions_tool_rows, hr, hv] at he
        rcases List.mem_append.mp he with h1 | h1
        exacts [htr e h1, htr2 e h1]

theorem versions_rows_trace (h : Host) (cats : List Category) :
    ∀ e ∈ (versions_rows h cats).2, ∃ q, e = Event.query q := by
  induction cats with
  | nil =>
    intro e he
    simp [versions_rows] at he
  | cons cat cats ih =>
    intro e he
    rcases hr : versions_tool_rows h ((lookup_category_key cat).getD "") cat.tools
      with ⟨res, tr⟩
    have htr : ∀ x ∈ tr, ∃ q, x = Event.query q := by
      intro x hx
      apply versions_tool_rows_trace h ((lookup_category_key cat).getD "") cat.tools
      rw [hr]
      exact hx
    rcases hv : versions_rows h cats with ⟨res2, tr2⟩
    have htr2 : ∀ x ∈ tr2, ∃ q, x = Event.query q := by
      intro x hx
      apply ih
      rw [hv]
      exact hx
    cases res with
    | error e0 =>
      simp only [versions_rows, hr] at he
      exact htr e he
    | ok rows =>
      cases res2 with
      | error e0 =>
        simp only [versions_rows, hr, hv] at he
        rcases List.mem_append.mp he with h1 | h1
        exacts [htr e h1, htr2 e h1]
      | ok rows2 =>
        simp only [versions_rows, hr, hv] at he
        rcases List.mem_append.mp he with h1 | h1
        exacts [htr e h1, htr2 e h1]

theorem list_tools_payload_trace (h : Host) (only_installed : Bool) (tools : List Tool) :
    ∀ e ∈ (list_tools_payload h only_installed tools).2, ∃ q, e = Event.query q := by
  induction tools with
  | nil =>
    intro e he
    simp [list_tools_payload] at he
  | cons t ts ih =>
    intro e he
    rcases hr : resolve_tool_version h t with ⟨res, tr⟩
    have htr : ∀ x ∈ tr, ∃ q, x = Event.query q := by
      intro x hx
      apply resolve_tool_version_trace_queries h t
      rw [hr]
      exact hx
    rcases hv : list_tools_payload h only_installed ts with ⟨res2, tr2⟩
    have htr2 : ∀ x ∈ tr2, ∃ q, x = Event.query q := by
      intro x hx
      apply ih
      rw [hv]
      exact hx
    cases res with
    | error e0 =>
      simp only [list_tools_payload, hr] at he
      exact htr e he
    | ok version =>
      cases res2 with
      | error e0 =>
        simp only [list_tools_payload, hr, hv] at he
        rcases List.mem_append.mp he with h1 | h1
        exacts [htr e h1, htr2 e h1]
      | ok tail =>
        simp only [list_tools_payload, hr, hv] at he
        split at he <;>
          (rcases List.mem_append.mp he with h1 | h1
           exacts [htr e h1, htr2 e h1])

theorem list_payload_trace (h : Host) (only_installed : Bool) (cats : List Category) :
    ∀ e ∈ (list_payload h only_installed cats).2, ∃ q, e = Event.query q := by
  induction cats with
  | nil =>
    intro e he
    simp [list_payload] at he
  | cons cat cats ih =>
    intro e he
    rcases hr : list_tools_payload h only_installed cat.tools with ⟨res, tr⟩
    have htr : ∀ x ∈ tr, ∃ q, x = Event.query q := by
      intro x hx
      apply list_tools_payload_trace h only_installed cat.tools
      rw [hr]
      exact hx
    rcases hv : list_payload h only_installed cats with ⟨res2, tr2⟩
    have htr2 : ∀ x ∈ tr2, ∃ q, x = Event.query q := by
      intro x hx
      apply ih
      rw [hv]
      exact hx
    cases res with
    | error e0 =>
      simp only [list_payload, hr] at he
      exact htr e he
    | ok tools_payload =>
      cases res2 with
      | error e0 =>
        simp only [list_payload, hr, hv] at he
        rcases List.mem_append.mp he with h1 | h1
        exacts [htr e h1, htr2 e h1]
      | ok tail =>
        simp only [list_payload, hr, hv] at he
        split at he <;>
          (rcases List.mem_append.mp he with h1 | h1
           exacts [htr e h1, htr2 e h1])

/-- C9 — the privilege check is invoked before every mutating operation and
never on read-only paths: `repo status`, `versions` and `list` produce no
`rootCheck` event at all, while `repo enable/disable` and `handle_install`
perform the `rootCheck` as their very first external action (or, for an
unknown group, perform no external action whatsoever). -/
theorem privilege_check_placement :
    (∀ (h : Host) (toggle_disable dry_run : Bool),
      Event.rootCheck ∉ (handle_repo h "status" toggle_disable dry_run).2) ∧
    (∀ (h : Host) (category : Option String),
      Event.rootCheck ∉ (handle_versions h category).2) ∧
    (∀ (h : Host) (category : Option String) (only_installed : Bool),
      Event.rootCheck ∉ (list_categories h category only_installed).2) ∧
    (∀ (h : Host) (command : String) (toggle_disable dry_run : Bool), command ≠ "status" →
      (handle_repo h command toggle_disable dry_run).2.head? = some Event.rootCheck) ∧
    (∀ (h : Host) (category_key : String) (upgrade dry_run : Bool),
      (handle_install h category_key upgrade dry_run).2 = [] ∨
      (handle_install h category_key upgrade dry_run).2.head? = some Event.rootCheck) := by
  refine ⟨?_, ?_, ?_, ?_, ?_⟩
  · intro h toggle_disable dry_run
    simp [handle_repo]
  · intro h category
    unfold handle_versions
    cases hsel : selected_categories category with
    | error e => simp
    | ok cats =>
      dsimp only
      rcases hv : versions_rows h cats with ⟨res, tr⟩
      have htr : ∀ x ∈ tr, ∃ q, x = Event.query q := by
        intro x hx
        apply versions_rows_trace h cats
        rw [hv]
        exact hx
      cases res with
      | error e0 =>
        intro hmem
        rcases htr _ hmem with ⟨q, hq⟩
        exact Event.noConfusion hq
      | ok r =>
        intro hmem
        rcases htr _ hmem with ⟨q, hq⟩
        exact Event.noConfusion hq
  · intro h category only_installed
    unfold list_categories
    cases hsel : selected_categories category with
    | error e => simp
    | ok cats =>
      dsimp only
      rcases hv : list_payload h only_installed cats with ⟨res, tr⟩
      have htr : ∀ x ∈ tr, ∃ q, x = Event.query q := by
        intro x hx
        apply list_payload_trace h only_installed cats
        rw [hv]
        exact hx
      cases res with
      | error e0 =>
        intro hmem
        rcases htr _ hmem with ⟨q, hq⟩
        exact Event.noConfusion hq
      | ok r =>
        intro hmem
        rcases htr _ hmem with ⟨q, hq⟩
        exact Event.noConfusion hq
  · intro h command toggle_disable dry_run hne
    unfold handle_repo
    rw [if_neg hne]
    by_cases he : h.euid ≠ 0 <;> simp [he]
  · intro h category_key upgrade dry_run
    unfold handle_install
    cases hc : get_category category_key with
    | error e => exact Or.inl rfl
    | ok category =>
      right
      by_cases he : h.euid ≠ 0
      · simp [he]
      · by_cases hs : source_exists h = false
        · simp [he, hs]
        · rcases hsv : snapshot_versions h
              (sortedDedup (category.tools.flatMap (fun tool => tool.packages)))
            with ⟨res1, tr1⟩
          cases res1 with
          | error e0 => simp [he, hs, hsv]
          | ok vb =>
            rcases hu : AptRunner.ensure_updated { dry_run := dry_run } h.exec
              with ⟨res2, tr2⟩
            cases res2 with
            | error e0 => simp [he, hs, hsv, hu]
            | ok r2 =>
              rcases hi : (if upgrade then
                  AptRunner.upgrade_packages { dry_run := dry_run } h.exec
                    (sortedDedup (category.tools.flatMap (fun tool => tool.packages)))
                else
                  AptRunner.install_packages { dry_run := dry_run } h.exec
                    (sortedDedup (category.tools.flatMap (fun tool => tool.packages))))
                with ⟨res3, tr3⟩
              cases res3 with
              | error e0 => simp [he, hs, hsv, hu, hi]
              | ok r3 =>
                rcases hrep : report_tools h vb category.tools with ⟨res4, tr4⟩
                cases res4 with
                | error e0 => simp [he, hs, hsv, hu, hi, hrep]
                | ok lines => simp [he, hs, hsv, hu, hi, hrep]

theorem privilege_check_placement_witness :
    Event.rootCheck ∉ (handle_repo hostA "status" false false).2 ∧
    Event.rootCheck ∉ (handle_versions hostA (some "recon")).2 ∧
    Event.rootCheck ∉ (list_categories hostA none true).2 ∧
    "enable" ≠ "status" ∧
    (handle_repo hostA "enable" false false).2.head? = some Event.rootCheck ∧
    ((handle_install hostA "recon" false true).2 = [] ∨
      (handle_install hostA "recon" false true).2.head? = some Event.rootCheck) :=
  ⟨privilege_check_placement.1 hostA false false,
   privilege_check_placement.2.1 hostA (some "recon"),
   privilege_check_placement.2.2.1 hostA none true,
   by decide,
   privilege_check_placement.2.2.2.1 hostA "enable" false false (by decide),
   privilege_check_placement.2.2.2.2 hostA "recon" false true⟩
